import Mathlib

/-!
Verification of the FetchTV catalog-filter and download/persistence pipeline
(`fetchtv_upnp.py`), as a shallow embedding in Lean 4.

The embedding follows the source file function by function:
* string matching helpers `has_include_folder`, `has_exclude_folder`,
  `has_title_match` (including Python truthiness of the value returned by
  `next(generator, False)`),
* the catalog filter `filter_recording_items` with its live-recording probe
  modelled as an `Item → Except Unit Bool` oracle (the probe performs HTTP and
  can raise a transport error),
* filename sanitization `create_valid_filename`,
* the per-item download `download_file` over an explicit filesystem state,
  with the network behaviour of one request modelled as a `NetResult` value,
* the save loop `save_recordings` threading filesystem and registry state.

Machine behaviour that the code leaves to the Python runtime (exception
propagation, `os.rename` semantics, dict update) is made explicit.
-/

set_option maxRecDepth 10000

/-- Substring containment on character lists: Python `s.find(pat) != -1`. -/
def hasSubstrList (pat : List Char) : List Char → Bool
  | [] => pat.isEmpty
  | c :: rest => pat.isPrefixOf (c :: rest) || hasSubstrList pat rest

/-- Python `s.find(sub) != -1` (substring containment). -/
def py_in (sub s : String) : Bool := hasSubstrList sub.toList s.toList

/-- Python `s.strip()`: remove leading and trailing whitespace. -/
def py_strip (s : String) : String :=
  String.mk (((s.toList.dropWhile Char.isWhitespace).reverse.dropWhile
    Char.isWhitespace).reverse)

/-- Python `s.lower()`. -/
def py_lower (s : String) : String := String.mk (s.toList.map Char.toLower)

/-- A recorded item as returned by the catalog collaborator. -/
structure Item where
  id : String
  title : String
  url : String
  duration : String
  size : Nat
  description : String
deriving DecidableEq, Repr

/-- A recording folder (show) as returned by the catalog collaborator. -/
structure Directory where
  id : String
  title : String
  items : List Item
deriving DecidableEq, Repr

/-- One entry of the filter's result list: the dict
`{'title': ..., 'id': ..., 'items': [...]}` built in `filter_recording_items`. -/
structure FilterResult where
  title : String
  id : String
  items : List Item
deriving DecidableEq, Repr

/-- The first criterion term whose stripped, lowercased form is a substring of
the lowercased title: Python
`next((t for t in terms if title.lower().find(t.strip().lower()) != -1), False)`.
`none` models the `False` default. -/
def first_match (title : String) (terms : List String) : Option String :=
  terms.find? (fun t => py_in (py_lower (py_strip t)) (py_lower title))

/-- Python truthiness of the value returned by the `next(..., False)` calls:
`False` is falsy, and a matched term is truthy exactly when it is a non-empty
string. -/
def truthy (o : Option String) : Bool :=
  match o with
  | none => false
  | some s => !s.toList.isEmpty

/-- Source `has_include_folder(recording, folder)`:
`not (folder and not next((f for f in folder if
recording.title.lower().find(f.strip().lower()) != -1), False))`. -/
def has_include_folder (recording : Directory) (folder : List String) : Bool :=
  !(!folder.isEmpty && !truthy (first_match recording.title folder))

/-- Source `has_exclude_folder(recording, exclude)`. -/
def has_exclude_folder (recording : Directory) (exclude : List String) : Bool :=
  !exclude.isEmpty && truthy (first_match recording.title exclude)

/-- Source `has_title_match(item, title)`. -/
def has_title_match (item : Item) (title : List String) : Bool :=
  !(!title.isEmpty && !truthy (first_match item.title title))

/-- The inner item loop of `filter_recording_items`: title filtering plus the
optional live probe `if not is_recording or currently_recording(item)`.
The probe can raise (transport error), which propagates out of the loop. -/
def process_items (title : List String) (is_recording : Bool)
    (probe : Item → Except Unit Bool) : List Item → Except Unit (List Item)
  | [] => Except.ok []
  | item :: rest =>
    if !has_title_match item title then process_items title is_recording probe rest
    else if !is_recording then
      match process_items title is_recording probe rest with
      | Except.ok tail => Except.ok (item :: tail)
      | Except.error e => Except.error e
    else
      match probe item with
      | Except.error e => Except.error e
      | Except.ok keep =>
        match process_items title is_recording probe rest with
        | Except.ok tail => Except.ok (if keep then item :: tail else tail)
        | Except.error e => Except.error e

/-- The folder loop of `filter_recording_items`, threading the `results` list
(which, when `is_recording` is set, is re-filtered to non-empty folders after
every append, exactly as in the source). -/
def filter_loop (folder exclude title : List String) (shows is_recording : Bool)
    (probe : Item → Except Unit Bool) :
    List Directory → List FilterResult → Except Unit (List FilterResult)
  | [], results => Except.ok results
  | dir :: rest, results =>
    if !has_include_folder dir folder || has_exclude_folder dir exclude then
      filter_loop folder exclude title shows is_recording probe rest results
    else
      match (if !shows then process_items title is_recording probe dir.items
             else Except.ok []) with
      | Except.error e => Except.error e
      | Except.ok its =>
        let results2 := results ++ [⟨dir.title, dir.id, its⟩]
        let results3 :=
          if is_recording then results2.filter (fun r => !r.items.isEmpty) else results2
        filter_loop folder exclude title shows is_recording probe rest results3

/-- Source `filter_recording_items(folder, exclude, title, shows, is_recording,
recordings)`, with the `currently_recording` HTTP probe abstracted as `probe`. -/
def filter_recording_items (folder exclude title : List String)
    (shows is_recording : Bool) (probe : Item → Except Unit Bool)
    (recordings : List Directory) : Except Unit (List FilterResult) :=
  filter_loop folder exclude title shows is_recording probe recordings []

/-! ### Constants of the source module -/

def SAVE_FILE : String := "fetchtv_save_list.json"
def CONST_LOCK : String := ".lock"
def MAX_FILENAME : Nat := 255
def REQUEST_TIMEOUT : Nat := 5
def MAX_OCTET : Nat := 4398046510080
def sep : String := "/"

/-- Source `create_valid_filename(filename)`: strip surrounding whitespace,
delete the special characters, turn tabs and spaces into underscores, truncate
to `MAX_FILENAME` characters. -/
def create_valid_filename (filename : String) : String :=
  let r1 := py_strip filename
  let r2 := String.mk (r1.toList.filter
    (fun c => !(['<', '>', ':', '"', '/', '\\', '|', '?', '*'].contains c)))
  let r3 := String.mk (r2.toList.map (fun c => if c = '\t' || c = ' ' then '_' else c))
  String.mk (r3.toList.take MAX_FILENAME)

/-! ### Filesystem and network model -/

/-- Filesystem state: which directories exist, and the content of each regular
file (`none` = absent). Content is an abstract chunk list. -/
structure FS where
  dirs : String → Bool
  files : String → Option (List Nat)

def FS.getFile (fs : FS) (p : String) : Option (List Nat) := fs.files p

def FS.hasFile (fs : FS) (p : String) : Bool := (fs.files p).isSome

/-- Create or replace the regular file at `p` with content `c`
(models the `open(..., 'xb')` + chunk-write loop as one visible write,
the single-threaded run never observes the intermediate states). -/
def FS.writeFile (fs : FS) (p : String) (c : List Nat) : FS :=
  ⟨fs.dirs, fun q => if q = p then some c else fs.files q⟩

/-- `os.makedirs(d)`. -/
def FS.mkdir (fs : FS) (d : String) : FS :=
  ⟨fun q => if q = d then true else fs.dirs q, fs.files⟩

/-- `os.rename(src, dst)`: atomically moves `src` over `dst`. -/
def FS.rename (fs : FS) (src dst : String) : FS :=
  match fs.files src with
  | none => fs
  | some c =>
    ⟨fs.dirs, fun q => if q = dst then some c else if q = src then none else fs.files q⟩

def FS.empty : FS := ⟨fun _ => false, fun _ => none⟩

/-- The shape of the `ChunkedEncodingError` caught at source line 98, as far as
the handler inspects it: `err.args` empty; `err.args[0].args[1]` an
`IncompleteRead`; `err.args[0].args[1]` present but of another type; or the
nested indexing raising `IndexError`. -/
inductive ChunkShape where
  | emptyArgs
  | nestedIncompleteRead
  | nestedOther
  | indexError
deriving DecidableEq, Repr

/-- What one download request's network side does: the initial GET can fail
(connection error or `raise_for_status`), otherwise it yields the declared
content length and the fate of the body transfer. -/
inductive TransferResult where
  | success (content : List Nat)
  | chunkedErr (shape : ChunkShape) (written : List Nat)
  | ioErr (written : List Nat)
deriving DecidableEq, Repr

inductive NetResult where
  | httpError
  | header (total_length : Nat) (transfer : TransferResult)
deriving DecidableEq, Repr

/-- Python exceptions that can escape `download_file` unhandled. -/
inductive PyExn where
  | nameError
  | httpError
deriving DecidableEq, Repr

/-! ### Messages printed / recorded by the pipeline -/

def live_msg : String := "Skipping item it\x27s currently recording"
def lock_msg_download : String := "Already writing (lock file exists) skipping"
def quirk_msg : String :=
  "Final read was short; FetchTV sets the wrong Content-Length header. File should be fine"
def chunk_generic_msg (total_length : Nat) : String :=
  "Chunked encoding error occurred. Content length was " ++ toString total_length
def io_error_msg : String := "Error writing file"
def lock_skip_msg (t : String) : String :=
  "Already writing (lock file exists) skipping: [" ++ t ++ "]"

/-- Source `download_file(item, filename, json_result)` over one request's
`NetResult`. Returns the filesystem after the call together with either the
boolean the function returns plus the `warning` / `error` entries it put into
`json_result`, or the exception that escaped it. Faithful points:
* the sentinel length check happens before the lock file is created;
* `open(filename + CONST_LOCK, 'xb')` raises `FileExistsError` when the lock
  exists (handled: return `False`);
* a `ChunkedEncodingError` wrapping an `IncompleteRead`, or one whose nested
  argument access raises `IndexError`, falls through to the rename and returns
  `True`; the other shapes leave `msg` unassigned and the handler dies with
  `NameError`;
* an `IOError` returns `False` with the lock file left in place;
* only line 114's `os.rename` ever makes the final name appear. -/
def download_file (item : Item) (filename : String) (net : NetResult) (fs : FS) :
    FS × Except PyExn (Bool × Option String × Option String) :=
  match net with
  | NetResult.httpError => (fs, Except.error PyExn.httpError)
  | NetResult.header total_length transfer =>
    if total_length = MAX_OCTET then
      (fs, Except.ok (false, some live_msg, none))
    else if fs.hasFile (filename ++ CONST_LOCK) then
      (fs, Except.ok (false, some lock_msg_download, none))
    else
      match transfer with
      | TransferResult.success content =>
        let fs1 := fs.writeFile (filename ++ CONST_LOCK) content
        (fs1.rename (filename ++ CONST_LOCK) filename, Except.ok (true, none, none))
      | TransferResult.ioErr written =>
        (fs.writeFile (filename ++ CONST_LOCK) written,
          Except.ok (false, none, some io_error_msg))
      | TransferResult.chunkedErr shape written =>
        let fs1 := fs.writeFile (filename ++ CONST_LOCK) written
        match shape with
        | ChunkShape.nestedIncompleteRead =>
          (fs1.rename (filename ++ CONST_LOCK) filename,
            Except.ok (true, some quirk_msg, none))
        | ChunkShape.indexError =>
          (fs1.rename (filename ++ CONST_LOCK) filename,
            Except.ok (true, some (chunk_generic_msg total_length), none))
        | ChunkShape.emptyArgs => (fs1, Except.error PyExn.nameError)
        | ChunkShape.nestedOther => (fs1, Except.error PyExn.nameError)

/-! ### Save pipeline state -/

/-- The registry (`SavedFiles.__files` dict) paired with the filesystem.
Loading/serialising of the JSON document is abstracted: the registry list is
the durable mapping. -/
structure SaveState where
  fs : FS
  registry : List (String × String)

/-- Python dict update `d[k] = v`. -/
def dict_set (reg : List (String × String)) (k v : String) : List (String × String) :=
  (k, v) :: reg.filter (fun e => e.1 != k)

/-- `SavedFiles.contains(item)`: `item.id in self.__files.keys()`. -/
def registry_contains (reg : List (String × String)) (item : Item) : Bool :=
  reg.any (fun e => e.1 == item.id)

/-- One entry of `save_recordings`' `json_result` (the item projection kept
whole rather than through `create_item`). -/
structure ItemRecord where
  item : Item
  recorded : Bool
  warning : Option String
  error_msg : Option String
deriving DecidableEq, Repr

/-- Result of processing one item in the `save_recordings` loop body. -/
structure StepOut where
  st : SaveState
  record : Option ItemRecord
  attempted : Bool
  exn : Option PyExn

/-- The show sub-directory `path + sep + create_valid_filename(show['title'])`. -/
def show_dir (path sh_title : String) : String :=
  path ++ sep ++ create_valid_filename sh_title

/-- The full target path `directory + sep + create_valid_filename(item.title)
+ '.mpeg'` for an item of the show `sh_title` under `path`. -/
def final_path (path sh_title : String) (item : Item) : String :=
  show_dir path sh_title ++ sep ++ create_valid_filename item.title ++ ".mpeg"

/-- `if not os.path.exists(directory): os.makedirs(directory)` (lines 216-217). -/
def mk_show_dir (path sh_title : String) (fs : FS) : FS :=
  if fs.dirs (show_dir path sh_title) then fs else fs.mkdir (show_dir path sh_title)

/-- The loop body of `save_recordings` for a single item (source lines
213-232): registry check, directory creation, lock pre-check, download,
rename-then-register. `attempted` is this item's contribution to
`some_to_record`. -/
def process_item (path : String) (overwrite : Bool) (net : Item → NetResult)
    (sh_title : String) (item : Item) (st : SaveState) : StepOut :=
  if overwrite || !registry_contains st.registry item then
    if (mk_show_dir path sh_title st.fs).hasFile (final_path path sh_title item ++ CONST_LOCK) then
      ⟨⟨mk_show_dir path sh_title st.fs, st.registry⟩,
        some ⟨item, false, some (lock_skip_msg item.title), none⟩, true, none⟩
    else
      match download_file item (final_path path sh_title item) (net item)
          (mk_show_dir path sh_title st.fs) with
      | (fs1, Except.error e) =>
        ⟨⟨fs1, st.registry⟩, some ⟨item, false, none, none⟩, true, some e⟩
      | (fs1, Except.ok (true, w, er)) =>
        ⟨⟨fs1, dict_set st.registry item.id item.title⟩,
          some ⟨item, true, w, er⟩, true, none⟩
      | (fs1, Except.ok (false, w, er)) =>
        ⟨⟨fs1, st.registry⟩, some ⟨item, false, w, er⟩, true, none⟩
  else ⟨st, none, false, none⟩

/-- Result of a whole save run. `exn = some e` means the run died with an
unhandled exception after having reached state `st`. -/
structure RunOut where
  st : SaveState
  records : List ItemRecord
  some_to_record : Bool
  exn : Option PyExn

/-- The inner item loop of `save_recordings` for one show. -/
def save_items (path : String) (overwrite : Bool) (net : Item → NetResult)
    (sh_title : String) :
    List Item → SaveState → List ItemRecord → Bool → RunOut
  | [], st, recs, flag => ⟨st, recs, flag, none⟩
  | item :: rest, st, recs, flag =>
    let out := process_item path overwrite net sh_title item st
    let recs2 := recs ++ out.record.toList
    let flag2 := flag || out.attempted
    match out.exn with
    | some e => ⟨out.st, recs2, flag2, some e⟩
    | none => save_items path overwrite net sh_title rest out.st recs2 flag2

/-- The outer show loop of `save_recordings`. -/
def save_shows (path : String) (overwrite : Bool) (net : Item → NetResult) :
    List FilterResult → SaveState → List ItemRecord → Bool → RunOut
  | [], st, recs, flag => ⟨st, recs, flag, none⟩
  | sh :: rest, st, recs, flag =>
    let out := save_items path overwrite net sh.title sh.items st recs flag
    match out.exn with
    | some e => out
    | none => save_shows path overwrite net rest out.st out.records out.some_to_record

/-- Source `save_recordings(recordings, save_path, overwrite)`. The initial
`SaveState` carries the filesystem and the registry obtained from
`SavedFiles.load`. `some_to_record = false` in the result is exactly the run
printing "There is nothing new to record". -/
def save_recordings (recordings : List FilterResult) (save_path : String)
    (overwrite : Bool) (net : Item → NetResult) (st0 : SaveState) : RunOut :=
  save_shows save_path overwrite net recordings st0 [] false

/-- The request issued by `currently_recording` (source line 150):
`requests.get(item.url, stream=True)` — note the absence of any timeout
argument. -/
structure HttpRequest where
  url : String
  stream : Bool
  timeout : Option Nat
deriving DecidableEq, Repr

def currently_recording_request (item : Item) : HttpRequest :=
  { url := item.url, stream := true, timeout := none }

/-- Content that the transfer loop finished writing to the lock file on the
paths of `download_file` that reach the rename of line 114. -/
def delivered : NetResult → Option (List Nat)
  | NetResult.header _ (TransferResult.success c) => some c
  | NetResult.header _ (TransferResult.chunkedErr ChunkShape.nestedIncompleteRead w) => some w
  | NetResult.header _ (TransferResult.chunkedErr ChunkShape.indexError w) => some w
  | _ => none

/-! ### Helper lemmas about paths and the filesystem model -/

theorem append_lock_ne_self (s : String) : s ++ CONST_LOCK ≠ s := by
  intro h
  have h2 := congrArg String.data h
  rw [String.data_append] at h2
  have h3 := congrArg List.length h2
  rw [List.length_append] at h3
  simp [CONST_LOCK] at h3

theorem mpeg_ne_append_lock (a q : String) : a ++ ".mpeg" ≠ q ++ CONST_LOCK := by
  intro h
  have h2 := congrArg String.data h
  rw [String.data_append, String.data_append] at h2
  have h3 := congrArg List.getLast? h2
  rw [List.getLast?_append_of_ne_nil _ (by decide),
    List.getLast?_append_of_ne_nil _ (by simp [CONST_LOCK])] at h3
  simp [CONST_LOCK, List.getLast?] at h3

theorem final_path_ne_lock (path sh_title : String) (item : Item) (q : String) :
    final_path path sh_title item ≠ q ++ CONST_LOCK :=
  mpeg_ne_append_lock _ q

theorem getFile_mkdir (fs : FS) (d p : String) : (fs.mkdir d).getFile p = fs.getFile p := rfl

theorem getFile_mk_show_dir (path sh_title : String) (fs : FS) (p : String) :
    (mk_show_dir path sh_title fs).getFile p = fs.getFile p := by
  unfold mk_show_dir
  split <;> rfl

theorem getFile_writeFile (fs : FS) (p : String) (c : List Nat) (q : String) :
    (fs.writeFile p c).getFile q = if q = p then some c else fs.getFile q := rfl

theorem files_writeFile_self (fs : FS) (p : String) (c : List Nat) :
    (fs.writeFile p c).files p = some c := by
  show (if p = p then some c else fs.files p) = some c
  simp

theorem getFile_rename_of_some (fs : FS) (src dst q : String) (c : List Nat)
    (h : fs.files src = some c) :
    (fs.rename src dst).getFile q =
      if q = dst then some c else if q = src then none else fs.getFile q := by
  unfold FS.rename
  rw [h]
  rfl

theorem writeFile_presence (fs : FS) (p : String) (c : List Nat) (q : String)
    (h : fs.getFile q ≠ none) : (fs.writeFile p c).getFile q ≠ none := by
  rw [getFile_writeFile]
  split
  · simp
  · exact h

theorem rename_presence (fs : FS) (src dst q : String)
    (h : fs.getFile q ≠ none) (hq : q ≠ src) : (fs.rename src dst).getFile q ≠ none := by
  unfold FS.rename
  cases hsrc : fs.files src with
  | none => exact h
  | some c =>
    show (if q = dst then some c else if q = src then none else fs.files q) ≠ none
    by_cases hd : q = dst
    · rw [if_pos hd]
      simp
    · rw [if_neg hd, if_neg hq]
      exact h

/-- Case analysis of one save-loop step: either the step leaves the registry
unchanged and the final target path untouched, or the transfer completed: the
registry gains exactly this item's entry, the final path holds exactly the
content the transfer loop finished writing to the lock-suffixed file (it is
produced by the rename of line 114), the lock marker is consumed by that
rename, and the item's record is marked `recorded`. -/
theorem process_item_cases (path : String) (ow : Bool) (net : Item → NetResult)
    (sh_title : String) (item : Item) (st : SaveState) :
    ((process_item path ow net sh_title item st).st.registry = st.registry ∧
      (process_item path ow net sh_title item st).st.fs.getFile (final_path path sh_title item)
        = st.fs.getFile (final_path path sh_title item)) ∨
    ((process_item path ow net sh_title item st).st.registry
        = dict_set st.registry item.id item.title ∧
      ∃ c, delivered (net item) = some c ∧
        (process_item path ow net sh_title item st).st.fs.getFile (final_path path sh_title item)
          = some c ∧
        (process_item path ow net sh_title item st).st.fs.getFile
          (final_path path sh_title item ++ CONST_LOCK) = none ∧
        ∃ w, (process_item path ow net sh_title item st).record
          = some ⟨item, true, w, none⟩) := by
  by_cases hg : (ow || !registry_contains st.registry item) = true
  case neg =>
    unfold process_item
    rw [if_neg hg]
    exact Or.inl ⟨rfl, rfl⟩
  case pos =>
    unfold process_item
    rw [if_pos hg]
    by_cases hl : (mk_show_dir path sh_title st.fs).hasFile
        (final_path path sh_title item ++ CONST_LOCK) = true
    · rw [if_pos hl]
      exact Or.inl ⟨rfl, getFile_mk_show_dir path sh_title st.fs _⟩
    · rw [if_neg hl]
      have hl' : (mk_show_dir path sh_title st.fs).hasFile
          (final_path path sh_title item ++ CONST_LOCK) = false := Bool.eq_false_iff.mpr hl
      rcases hn : net item with _ | ⟨len, tr⟩
      · simp only [hn, download_file]
        exact Or.inl ⟨by trivial, getFile_mk_show_dir path sh_title st.fs _⟩
      · by_cases hlen : len = MAX_OCTET
        · simp only [hn, download_file, hlen, if_pos rfl, ite_true]
          exact Or.inl ⟨by trivial, getFile_mk_show_dir path sh_title st.fs _⟩
        · simp only [hn, download_file, if_neg hlen, hl', Bool.false_eq_true, if_false]
          cases tr with
          | success c =>
            refine Or.inr ⟨rfl, c, rfl, ?_, ?_, none, rfl⟩
            · rw [getFile_rename_of_some _ _ _ _ c
                (files_writeFile_self (mk_show_dir path sh_title st.fs) _ c)]
              rw [if_pos rfl]
            · rw [getFile_rename_of_some _ _ _ _ c
                (files_writeFile_self (mk_show_dir path sh_title st.fs) _ c)]
              rw [if_neg (append_lock_ne_self (final_path path sh_title item)), if_pos rfl]
          | ioErr w =>
            refine Or.inl ⟨rfl, ?_⟩
            rw [getFile_writeFile,
              if_neg (Ne.symm (append_lock_ne_self (final_path path sh_title item)))]
            exact getFile_mk_show_dir path sh_title st.fs _
          | chunkedErr shape w =>
            cases shape with
            | nestedIncompleteRead =>
              refine Or.inr ⟨rfl, w, rfl, ?_, ?_, some quirk_msg, rfl⟩
              · rw [getFile_rename_of_some _ _ _ _ w
                  (files_writeFile_self (mk_show_dir path sh_title st.fs) _ w)]
                rw [if_pos rfl]
              · rw [getFile_rename_of_some _ _ _ _ w
                  (files_writeFile_self (mk_show_dir path sh_title st.fs) _ w)]
                rw [if_neg (append_lock_ne_self (final_path path sh_title item)), if_pos rfl]
            | indexError =>
              refine Or.inr ⟨rfl, w, rfl, ?_, ?_, some (chunk_generic_msg len), rfl⟩
              · rw [getFile_rename_of_some _ _ _ _ w
                  (files_writeFile_self (mk_show_dir path sh_title st.fs) _ w)]
                rw [if_pos rfl]
              · rw [getFile_rename_of_some _ _ _ _ w
                  (files_writeFile_self (mk_show_dir path sh_title st.fs) _ w)]
                rw [if_neg (append_lock_ne_self (final_path path sh_title item)), if_pos rfl]
            | emptyArgs =>
              refine Or.inl ⟨rfl, ?_⟩
              rw [getFile_writeFile,
                if_neg (Ne.symm (append_lock_ne_self (final_path path sh_title item)))]
              exact getFile_mk_show_dir path sh_title st.fs _
            | nestedOther =>
              refine Or.inl ⟨rfl, ?_⟩
              rw [getFile_writeFile,
                if_neg (Ne.symm (append_lock_ne_self (final_path path sh_title item)))]
              exact getFile_mk_show_dir path sh_title st.fs _

/-- The filesystem after one save-loop step is one of: unchanged, the show
directory created, a (possibly failed) write to the lock-suffixed path, or
such a write followed by the rename onto the final path. In particular no
step ever writes directly to a final name. -/
theorem process_item_fs_shape (path : String) (ow : Bool) (net : Item → NetResult)
    (sh_title : String) (item : Item) (st : SaveState) :
    (process_item path ow net sh_title item st).st.fs = st.fs ∨
    (process_item path ow net sh_title item st).st.fs = mk_show_dir path sh_title st.fs ∨
    (∃ w, (process_item path ow net sh_title item st).st.fs
      = (mk_show_dir path sh_title st.fs).writeFile
          (final_path path sh_title item ++ CONST_LOCK) w) ∨
    (∃ c, (process_item path ow net sh_title item st).st.fs
      = ((mk_show_dir path sh_title st.fs).writeFile
          (final_path path sh_title item ++ CONST_LOCK) c).rename
            (final_path path sh_title item ++ CONST_LOCK) (final_path path sh_title item)) := by
  by_cases hg : (ow || !registry_contains st.registry item) = true
  case neg =>
    unfold process_item
    rw [if_neg hg]
    exact Or.inl rfl
  case pos =>
    unfold process_item
    rw [if_pos hg]
    by_cases hl : (mk_show_dir path sh_title st.fs).hasFile
        (final_path path sh_title item ++ CONST_LOCK) = true
    · rw [if_pos hl]
      exact Or.inr (Or.inl rfl)
    · rw [if_neg hl]
      have hl' : (mk_show_dir path sh_title st.fs).hasFile
          (final_path path sh_title item ++ CONST_LOCK) = false := Bool.eq_false_iff.mpr hl
      rcases hn : net item with _ | ⟨len, tr⟩
      · simp only [hn, download_file]
        exact Or.inr (Or.inl (by trivial))
      · by_cases hlen : len = MAX_OCTET
        · simp only [hn, download_file, hlen, if_pos rfl, ite_true]
          exact Or.inr (Or.inl (by trivial))
        · simp only [hn, download_file, if_neg hlen, hl', Bool.false_eq_true, if_false]
          cases tr with
          | success c => exact Or.inr (Or.inr (Or.inr ⟨c, rfl⟩))
          | ioErr w => exact Or.inr (Or.inr (Or.inl ⟨w, rfl⟩))
          | chunkedErr shape w =>
            cases shape with
            | nestedIncompleteRead => exact Or.inr (Or.inr (Or.inr ⟨w, rfl⟩))
            | indexError => exact Or.inr (Or.inr (Or.inr ⟨w, rfl⟩))
            | emptyArgs => exact Or.inr (Or.inr (Or.inl ⟨w, rfl⟩))
            | nestedOther => exact Or.inr (Or.inr (Or.inl ⟨w, rfl⟩))

/-- A present file whose path is not lock-shaped stays present across one
save-loop step (only lock-suffixed paths are ever removed, by the rename). -/
theorem process_item_presence (path : String) (ow : Bool) (net : Item → NetResult)
    (sh_title : String) (item : Item) (st : SaveState) (p : String)
    (hp : ∀ q, p ≠ q ++ CONST_LOCK) (h : st.fs.getFile p ≠ none) :
    (process_item path ow net sh_title item st).st.fs.getFile p ≠ none := by
  rcases process_item_fs_shape path ow net sh_title item st with
    hfs | hfs | ⟨w, hfs⟩ | ⟨c, hfs⟩ <;> rw [hfs]
  · exact h
  · rw [getFile_mk_show_dir]
    exact h
  · exact writeFile_presence _ _ _ _ (by rw [getFile_mk_show_dir]; exact h)
  · exact rename_presence _ _ _ _
      (writeFile_presence _ _ _ _ (by rw [getFile_mk_show_dir]; exact h)) (hp _)

theorem save_items_cons_exn (path : String) (ow : Bool) (net : Item → NetResult)
    (sh_title : String) (item : Item) (rest : List Item) (st : SaveState)
    (recs : List ItemRecord) (flag : Bool) (e : PyExn)
    (h : (process_item path ow net sh_title item st).exn = some e) :
    save_items path ow net sh_title (item :: rest) st recs flag =
      ⟨(process_item path ow net sh_title item st).st,
        recs ++ (process_item path ow net sh_title item st).record.toList,
        flag || (process_item path ow net sh_title item st).attempted, some e⟩ := by
  simp only [save_items, h]

theorem save_items_cons_ok (path : String) (ow : Bool) (net : Item → NetResult)
    (sh_title : String) (item : Item) (rest : List Item) (st : SaveState)
    (recs : List ItemRecord) (flag : Bool)
    (h : (process_item path ow net sh_title item st).exn = none) :
    save_items path ow net sh_title (item :: rest) st recs flag =
      save_items path ow net sh_title rest (process_item path ow net sh_title item st).st
        (recs ++ (process_item path ow net sh_title item st).record.toList)
        (flag || (process_item path ow net sh_title item st).attempted) := by
  simp only [save_items, h]

/-- File presence (for non-lock paths) is preserved by the item loop. -/
theorem save_items_presence (path : String) (ow : Bool) (net : Item → NetResult)
    (sh_title : String) (items : List Item) (st : SaveState)
    (recs : List ItemRecord) (flag : Bool) (p : String)
    (hp : ∀ q, p ≠ q ++ CONST_LOCK) (h : st.fs.getFile p ≠ none) :
    (save_items path ow net sh_title items st recs flag).st.fs.getFile p ≠ none := by
  induction items generalizing st recs flag with
  | nil => exact h
  | cons item rest ih =>
    cases hexn : (process_item path ow net sh_title item st).exn with
    | some e =>
      rw [save_items_cons_exn path ow net sh_title item rest st recs flag e hexn]
      exact process_item_presence path ow net sh_title item st p hp h
    | none =>
      rw [save_items_cons_ok path ow net sh_title item rest st recs flag hexn]
      exact ih _ _ _ (process_item_presence path ow net sh_title item st p hp h)

theorem save_shows_cons_exn (path : String) (ow : Bool) (net : Item → NetResult)
    (sh : FilterResult) (rest : List FilterResult) (st : SaveState)
    (recs : List ItemRecord) (flag : Bool) (e : PyExn)
    (h : (save_items path ow net sh.title sh.items st recs flag).exn = some e) :
    save_shows path ow net (sh :: rest) st recs flag =
      save_items path ow net sh.title sh.items st recs flag := by
  simp only [save_shows, h]

theorem save_shows_cons_ok (path : String) (ow : Bool) (net : Item → NetResult)
    (sh : FilterResult) (rest : List FilterResult) (st : SaveState)
    (recs : List ItemRecord) (flag : Bool)
    (h : (save_items path ow net sh.title sh.items st recs flag).exn = none) :
    save_shows path ow net (sh :: rest) st recs flag =
      save_shows path ow net rest (save_items path ow net sh.title sh.items st recs flag).st
        (save_items path ow net sh.title sh.items st recs flag).records
        (save_items path ow net sh.title sh.items st recs flag).some_to_record := by
  simp only [save_shows, h]

/-- File presence (for non-lock paths) is preserved by the show loop. -/
theorem save_shows_presence (path : String) (ow : Bool) (net : Item → NetResult)
    (shs : List FilterResult) (st : SaveState)
    (recs : List ItemRecord) (flag : Bool) (p : String)
    (hp : ∀ q, p ≠ q ++ CONST_LOCK) (h : st.fs.getFile p ≠ none) :
    (save_shows path ow net shs st recs flag).st.fs.getFile p ≠ none := by
  induction shs generalizing st recs flag with
  | nil => exact h
  | cons sh rest ih =>
    cases hexn : (save_items path ow net sh.title sh.items st recs flag).exn with
    | some e =>
      rw [save_shows_cons_exn path ow net sh rest st recs flag e hexn]
      exact save_items_presence path ow net sh.title sh.items st recs flag p hp h
    | none =>
      rw [save_shows_cons_ok path ow net sh rest st recs flag hexn]
      exact ih _ _ _ (save_items_presence path ow net sh.title sh.items st recs flag p hp h)

/-- Every entry of the registry after the item loop either predates the loop
or belongs to one of its items, whose final file is then present on disk. -/
theorem save_items_registry (path : String) (ow : Bool) (net : Item → NetResult)
    (sh_title : String) (items : List Item) (st : SaveState)
    (recs : List ItemRecord) (flag : Bool) (id title : String)
    (hmem : (id, title) ∈ (save_items path ow net sh_title items st recs flag).st.registry) :
    (id, title) ∈ st.registry ∨
    ∃ it, it ∈ items ∧ id = it.id ∧ title = it.title ∧
      (save_items path ow net sh_title items st recs flag).st.fs.getFile
        (final_path path sh_title it) ≠ none := by
  induction items generalizing st recs flag with
  | nil => exact Or.inl hmem
  | cons item rest ih =>
    cases hexn : (process_item path ow net sh_title item st).exn with
    | some e =>
      rw [save_items_cons_exn path ow net sh_title item rest st recs flag e hexn] at hmem ⊢
      rcases process_item_cases path ow net sh_title item st with
        ⟨hreg, _⟩ | ⟨hreg, c, _, hfp, _, _⟩
      · rw [hreg] at hmem
        exact Or.inl hmem
      · rw [hreg] at hmem
        rcases List.mem_cons.mp hmem with heq | hin
        · refine Or.inr ⟨item, List.mem_cons_self _ _,
            congrArg Prod.fst heq, congrArg Prod.snd heq, ?_⟩
          rw [hfp]
          simp
        · exact Or.inl (List.mem_of_mem_filter hin)
    | none =>
      rw [save_items_cons_ok path ow net sh_title item rest st recs flag hexn] at hmem ⊢
      rcases ih ((process_item path ow net sh_title item st).st) _ _ hmem with
        h1 | ⟨it, hit, h2, h3, h4⟩
      · rcases process_item_cases path ow net sh_title item st with
          ⟨hreg, _⟩ | ⟨hreg, c, _, hfp, _, _⟩
        · rw [hreg] at h1
          exact Or.inl h1
        · rw [hreg] at h1
          rcases List.mem_cons.mp h1 with heq | hin
          · refine Or.inr ⟨item, List.mem_cons_self _ _,
              congrArg Prod.fst heq, congrArg Prod.snd heq, ?_⟩
            exact save_items_presence path ow net sh_title rest _ _ _ _
              (final_path_ne_lock path sh_title item) (by rw [hfp]; simp)
          · exact Or.inl (List.mem_of_mem_filter hin)
      · exact Or.inr ⟨it, List.mem_cons_of_mem _ hit, h2, h3, h4⟩

/-- Every entry of the registry after the show loop either predates the loop
or belongs to an item of one of its shows, with that item's final file
present. -/
theorem save_shows_registry (path : String) (ow : Bool) (net : Item → NetResult)
    (shs : List FilterResult) (st : SaveState) (recs : List ItemRecord) (flag : Bool)
    (id title : String)
    (hmem : (id, title) ∈ (save_shows path ow net shs st recs flag).st.registry) :
    (id, title) ∈ st.registry ∨
    ∃ sh, sh ∈ shs ∧ ∃ it, it ∈ sh.items ∧ id = it.id ∧ title = it.title ∧
      (save_shows path ow net shs st recs flag).st.fs.getFile
        (final_path path sh.title it) ≠ none := by
  induction shs generalizing st recs flag with
  | nil => exact Or.inl hmem
  | cons sh rest ih =>
    cases hexn : (save_items path ow net sh.title sh.items st recs flag).exn with
    | some e =>
      rw [save_shows_cons_exn path ow net sh rest st recs flag e hexn] at hmem ⊢
      rcases save_items_registry path ow net sh.title sh.items st recs flag id title hmem with
        h1 | ⟨it, hit, h2, h3, h4⟩
      · exact Or.inl h1
      · exact Or.inr ⟨sh, List.mem_cons_self _ _, it, hit, h2, h3, h4⟩
    | none =>
      rw [save_shows_cons_ok path ow net sh rest st recs flag hexn] at hmem ⊢
      rcases ih _ _ _ hmem with h1 | ⟨sh2, hsh2, it, hit, h2, h3, h4⟩
      · rcases save_items_registry path ow net sh.title sh.items st recs flag id title h1 with
          h5 | ⟨it, hit, h2, h3, h4⟩
        · exact Or.inl h5
        · refine Or.inr ⟨sh, List.mem_cons_self _ _, it, hit, h2, h3, ?_⟩
          exact save_shows_presence path ow net rest _ _ _ _
            (final_path_ne_lock path sh.title it) h4
      · exact Or.inr ⟨sh2, List.mem_cons_of_mem _ hsh2, it, hit, h2, h3, h4⟩

/-! ### Concrete fixtures used by witnesses and counterexamples -/

def item7 : Item := ⟨"7", "S01 E02 Pilot", "http://fetch/7.mpeg", "01:00", 0, "pilot"⟩

def drama_show : FilterResult := ⟨"Drama", "2", [item7]⟩

def net_ok : Item → NetResult := fun _ => NetResult.header 100 (TransferResult.success [1])

def st_empty : SaveState := ⟨FS.empty, []⟩

/-- C1: the final target file only ever appears through the rename of the
fully written lock-suffixed file — never by a direct write to the final name —
and the registry entry `{id -> title}` is written strictly after that rename
and within the same item step (hence before the pipeline advances), so a
registry entry always implies the finalized file is present at its computed
path. First conjunct: per-step — a registry change, or any change of the
final path, happens only on the completed path, where the final path carries
exactly the content written to the lock file, the lock marker is gone, and
the registry gained this item's entry. Second conjunct: run-level — every
registry entry after a save run either predates the run or belongs to a
processed item whose finalized file is present at its computed path. -/
theorem C1_final_file_only_by_rename_and_registry_order :
    (∀ (path : String) (ow : Bool) (net : Item → NetResult) (sh_title : String)
      (item : Item) (st : SaveState),
      ((process_item path ow net sh_title item st).st.registry ≠ st.registry ∨
        (process_item path ow net sh_title item st).st.fs.getFile (final_path path sh_title item)
          ≠ st.fs.getFile (final_path path sh_title item)) →
      ((process_item path ow net sh_title item st).st.registry
          = dict_set st.registry item.id item.title ∧
        ∃ c, delivered (net item) = some c ∧
          (process_item path ow net sh_title item st).st.fs.getFile
            (final_path path sh_title item) = some c ∧
          (process_item path ow net sh_title item st).st.fs.getFile
            (final_path path sh_title item ++ CONST_LOCK) = none ∧
          ∃ w, (process_item path ow net sh_title item st).record
            = some ⟨item, true, w, none⟩)) ∧
    (∀ (recordings : List FilterResult) (save_path : String) (ow : Bool)
      (net : Item → NetResult) (st0 : SaveState) (id title : String),
      (id, title) ∈ (save_recordings recordings save_path ow net st0).st.registry →
      (id, title) ∈ st0.registry ∨
      ∃ sh, sh ∈ recordings ∧ ∃ it, it ∈ sh.items ∧ id = it.id ∧ title = it.title ∧
        (save_recordings recordings save_path ow net st0).st.fs.getFile
          (final_path save_path sh.title it) ≠ none) := by
  constructor
  · intro path ow net sh_title item st hchange
    rcases process_item_cases path ow net sh_title item st with ⟨hreg, hfile⟩ | hdone
    · rcases hchange with hc | hc
      · exact absurd hreg hc
      · exact absurd hfile hc
    · exact hdone
  · intro recordings save_path ow net st0 id title hmem
    exact save_shows_registry save_path ow net recordings st0 [] false id title hmem

/-- Witness for C1 at a concrete successful run: saving `item7` (id `"7"`)
into show `"Drama"` under root `"root"` yields a registry entry whose
finalized file is present. -/
theorem C1_witness :
    ("7", "S01 E02 Pilot") ∈ st_empty.registry ∨
    ∃ sh, sh ∈ [drama_show] ∧ ∃ it, it ∈ sh.items ∧ "7" = it.id ∧ "S01 E02 Pilot" = it.title ∧
      (save_recordings [drama_show] "root" false net_ok st_empty).st.fs.getFile
        (final_path "root" sh.title it) ≠ none :=
  C1_final_file_only_by_rename_and_registry_order.2 [drama_show] "root" false net_ok st_empty
    "7" "S01 E02 Pilot" (by decide)

theorem hasFile_mk_show_dir (path sh_title : String) (fs : FS) (p : String) :
    (mk_show_dir path sh_title fs).hasFile p = fs.hasFile p := by
  unfold mk_show_dir
  split <;> rfl

theorem files_mk_show_dir (path sh_title : String) (fs : FS) :
    (mk_show_dir path sh_title fs).files = fs.files := by
  unfold mk_show_dir FS.mkdir
  split <;> rfl

def net_live : Item → NetResult :=
  fun _ => NetResult.header MAX_OCTET (TransferResult.success [])

/-- C4: an item whose download-time header probe reports the sentinel length
`4398046510080` yields the SkippedLive outcome (`recorded = false` with the
"currently recording" warning), no exception, no change to any file, no
registry change, and no lock marker left behind. -/
theorem C4_sentinel_yields_skipped_live :
    ∀ (path : String) (ow : Bool) (net : Item → NetResult) (sh_title : String)
      (item : Item) (st : SaveState) (tr : TransferResult),
      (ow || !registry_contains st.registry item) = true →
      st.fs.hasFile (final_path path sh_title item ++ CONST_LOCK) = false →
      net item = NetResult.header MAX_OCTET tr →
      (process_item path ow net sh_title item st).st.fs.files = st.fs.files ∧
      (process_item path ow net sh_title item st).st.registry = st.registry ∧
      (process_item path ow net sh_title item st).record
        = some ⟨item, false, some live_msg, none⟩ ∧
      (process_item path ow net sh_title item st).exn = none ∧
      (process_item path ow net sh_title item st).st.fs.hasFile
        (final_path path sh_title item ++ CONST_LOCK) = false := by
  intro path ow net sh_title item st tr hg hlock hn
  have hl : (mk_show_dir path sh_title st.fs).hasFile
      (final_path path sh_title item ++ CONST_LOCK) = false := by
    rw [hasFile_mk_show_dir]
    exact hlock
  unfold process_item
  rw [if_pos hg, if_neg (by rw [hl]; simp)]
  simp only [hn, download_file, if_pos rfl, ite_true]
  refine ⟨files_mk_show_dir path sh_title st.fs, by trivial, by trivial, by trivial, ?_⟩
  rw [hasFile_mk_show_dir]
  exact hlock

/-- Witness for C4: the sentinel-length probe on a concrete empty state. -/
theorem C4_witness :
    (process_item "r" true net_live "Drama" item7 st_empty).record
      = some ⟨item7, false, some live_msg, none⟩ ∧
    (process_item "r" true net_live "Drama" item7 st_empty).st.fs.hasFile
      (final_path "r" "Drama" item7 ++ CONST_LOCK) = false :=
  ⟨(C4_sentinel_yields_skipped_live "r" true net_live "Drama" item7 st_empty
      (TransferResult.success []) (by decide) (by decide) (by decide)).2.2.1,
   (C4_sentinel_yields_skipped_live "r" true net_live "Drama" item7 st_empty
      (TransferResult.success []) (by decide) (by decide) (by decide)).2.2.2.2⟩

theorem process_item_skip (path : String) (net : Item → NetResult) (sh_title : String)
    (item : Item) (st : SaveState) (h : registry_contains st.registry item = true) :
    process_item path false net sh_title item st = ⟨st, none, false, none⟩ := by
  unfold process_item
  rw [if_neg (by simp [h])]

theorem save_items_all_skip (path : String) (net : Item → NetResult) (sh_title : String)
    (items : List Item) (st : SaveState) (recs : List ItemRecord) (flag : Bool)
    (h : (items.all fun it => registry_contains st.registry it) = true) :
    save_items path false net sh_title items st recs flag = ⟨st, recs, flag, none⟩ := by
  induction items generalizing recs flag with
  | nil => rfl
  | cons item rest ih =>
    rw [List.all_cons, Bool.and_eq_true] at h
    have hskip := process_item_skip path net sh_title item st h.1
    rw [save_items_cons_ok _ _ _ _ _ _ _ _ _ (by rw [hskip])]
    rw [hskip]
    simpa using ih _ _ h.2

theorem save_shows_all_skip (path : String) (net : Item → NetResult)
    (shs : List FilterResult) (st : SaveState) (recs : List ItemRecord) (flag : Bool)
    (h : (shs.all fun sh => sh.items.all fun it => registry_contains st.registry it) = true) :
    save_shows path false net shs st recs flag = ⟨st, recs, flag, none⟩ := by
  induction shs generalizing recs flag with
  | nil => rfl
  | cons sh rest ih =>
    rw [List.all_cons, Bool.and_eq_true] at h
    have hitems := save_items_all_skip path net sh.title sh.items st recs flag h.1
    rw [save_shows_cons_ok _ _ _ _ _ _ _ _ (by rw [hitems])]
    rw [hitems]
    exact ih _ _ h.2

/-- C5: an item whose id is already in the registry is skipped without any
state change when `overwrite` is false (first conjunct: the step returns the
state untouched, records nothing and does not set `some_to_record`); and a
run in which every item is already registered performs nothing at all and
ends with `some_to_record = false` — the "There is nothing new to record"
report. -/
theorem C5_already_saved_skips_without_io :
    (∀ (path : String) (net : Item → NetResult) (sh_title : String) (item : Item)
      (st : SaveState), registry_contains st.registry item = true →
      process_item path false net sh_title item st = ⟨st, none, false, none⟩) ∧
    (∀ (recordings : List FilterResult) (save_path : String) (net : Item → NetResult)
      (st0 : SaveState),
      (recordings.all fun sh => sh.items.all fun it => registry_contains st0.registry it)
        = true →
      save_recordings recordings save_path false net st0 = ⟨st0, [], false, none⟩) := by
  constructor
  · exact process_item_skip
  · intro recordings save_path net st0 h
    exact save_shows_all_skip save_path net recordings st0 [] false h

def item42 : Item := ⟨"42", "Old Show", "http://fetch/42.mpeg", "01:00", 0, "old"⟩

def st_42 : SaveState := ⟨FS.empty, [("42", "Old Show")]⟩

/-- Witness for C5: a registry already holding id `"42"` and `overwrite=false`. -/
theorem C5_witness :
    process_item "r" false net_ok "Drama" item42 st_42 = ⟨st_42, none, false, none⟩ ∧
    save_recordings [⟨"Drama", "9", [item42]⟩] "r" false net_ok st_42
      = ⟨st_42, [], false, none⟩ :=
  ⟨C5_already_saved_skips_without_io.1 "r" net_ok "Drama" item42 st_42 (by decide),
   C5_already_saved_skips_without_io.2 [⟨"Drama", "9", [item42]⟩] "r" net_ok st_42 (by decide)⟩

/-- The lock-skip branch of the save loop (source lines 222-228). -/
theorem process_item_locked (path : String) (ow : Bool) (net : Item → NetResult)
    (sh_title : String) (item : Item) (st : SaveState)
    (hg : (ow || !registry_contains st.registry item) = true)
    (hlock : st.fs.hasFile (final_path path sh_title item ++ CONST_LOCK) = true) :
    process_item path ow net sh_title item st =
      ⟨⟨mk_show_dir path sh_title st.fs, st.registry⟩,
        some ⟨item, false, some (lock_skip_msg item.title), none⟩, true, none⟩ := by
  have hl : (mk_show_dir path sh_title st.fs).hasFile
      (final_path path sh_title item ++ CONST_LOCK) = true := by
    rw [hasFile_mk_show_dir]
    exact hlock
  unfold process_item
  rw [if_pos hg, if_pos hl]

/-- C6: when a lock marker already exists at the computed target path, the
item's outcome is SkippedLocked (`recorded = false` with the lock warning),
no file is touched (so the marker is neither deleted nor truncated), the
registry is unchanged, and no download is attempted: the step's result does
not depend on the network behaviour at all. -/
theorem C6_existing_lock_marker_skips :
    ∀ (path : String) (ow : Bool) (net net2 : Item → NetResult) (sh_title : String)
      (item : Item) (st : SaveState),
      (ow || !registry_contains st.registry item) = true →
      st.fs.hasFile (final_path path sh_title item ++ CONST_LOCK) = true →
      (process_item path ow net sh_title item st).record
        = some ⟨item, false, some (lock_skip_msg item.title), none⟩ ∧
      (process_item path ow net sh_title item st).st.registry = st.registry ∧
      (process_item path ow net sh_title item st).exn = none ∧
      (process_item path ow net sh_title item st).st.fs.files = st.fs.files ∧
      (process_item path ow net sh_title item st).st.fs.getFile
          (final_path path sh_title item ++ CONST_LOCK)
        = st.fs.getFile (final_path path sh_title item ++ CONST_LOCK) ∧
      process_item path ow net sh_title item st
        = process_item path ow net2 sh_title item st := by
  intro path ow net net2 sh_title item st hg hlock
  rw [process_item_locked path ow net sh_title item st hg hlock,
    process_item_locked path ow net2 sh_title item st hg hlock]
  exact ⟨rfl, rfl, rfl, files_mk_show_dir path sh_title st.fs,
    getFile_mk_show_dir path sh_title st.fs _, rfl⟩

def st_locked : SaveState :=
  ⟨⟨fun _ => false,
    fun q => if q = final_path "r" "Drama" item7 ++ CONST_LOCK then some [9] else none⟩, []⟩

/-- Witness for C6: a pre-existing lock marker for `item7`; the outcome is the
lock skip, the marker content is untouched, and the result is the same under
two different network behaviours. -/
theorem C6_witness :
    (process_item "r" false net_ok "Drama" item7 st_locked).record
      = some ⟨item7, false, some (lock_skip_msg item7.title), none⟩ ∧
    (process_item "r" false net_ok "Drama" item7 st_locked).st.fs.getFile
        (final_path "r" "Drama" item7 ++ CONST_LOCK)
      = st_locked.fs.getFile (final_path "r" "Drama" item7 ++ CONST_LOCK) ∧
    process_item "r" false net_ok "Drama" item7 st_locked
      = process_item "r" false net_live "Drama" item7 st_locked :=
  ⟨(C6_existing_lock_marker_skips "r" false net_ok net_live "Drama" item7 st_locked
      (by decide) (by decide)).1,
   (C6_existing_lock_marker_skips "r" false net_ok net_live "Drama" item7 st_locked
      (by decide) (by decide)).2.2.2.2.1,
   (C6_existing_lock_marker_skips "r" false net_ok net_live "Drama" item7 st_locked
      (by decide) (by decide)).2.2.2.2.2⟩

/-- The ChunkedEncodingError handler dies with an unhandled `NameError` when
`err.args` is empty or when `err.args[0].args[1]` exists but is not an
`IncompleteRead`: in those shapes no branch assigns `msg` before
`print_warning(msg)` reads it. -/
theorem download_file_quirk_crash (item : Item) (filename : String) (fs : FS)
    (len : Nat) (w : List Nat) (shape : ChunkShape)
    (hlen : len ≠ MAX_OCTET)
    (hlock : fs.hasFile (filename ++ CONST_LOCK) = false)
    (hshape : shape = ChunkShape.emptyArgs ∨ shape = ChunkShape.nestedOther) :
    download_file item filename
        (NetResult.header len (TransferResult.chunkedErr shape w)) fs
      = (fs.writeFile (filename ++ CONST_LOCK) w, Except.error PyExn.nameError) := by
  simp only [download_file]
  rw [if_neg hlen, if_neg (by rw [hlock]; simp)]
  rcases hshape with h | h <;> subst h <;> rfl

/-- C10: a ChunkedEncodingError with empty `args`, or whose first argument's
second nested argument exists but is not an `IncompleteRead`, leaves the
handler's `msg` variable unassigned; the handler raises an unhandled
`NameError`, so `download_file` returns no boolean at all, and in the save
loop the item's record stays `recorded = false` with neither a warning nor an
error while the exception escapes the run (no Completed-with-warning and no
FailedIO outcome). -/
theorem C10_unassigned_msg_raises_name_error :
    (∀ (item : Item) (filename : String) (fs : FS) (len : Nat) (w : List Nat)
      (shape : ChunkShape), len ≠ MAX_OCTET →
      fs.hasFile (filename ++ CONST_LOCK) = false →
      (shape = ChunkShape.emptyArgs ∨ shape = ChunkShape.nestedOther) →
      download_file item filename
          (NetResult.header len (TransferResult.chunkedErr shape w)) fs
        = (fs.writeFile (filename ++ CONST_LOCK) w, Except.error PyExn.nameError)) ∧
    (∀ (path : String) (ow : Bool) (net : Item → NetResult) (sh_title : String)
      (item : Item) (st : SaveState) (len : Nat) (w : List Nat) (shape : ChunkShape),
      net item = NetResult.header len (TransferResult.chunkedErr shape w) →
      len ≠ MAX_OCTET →
      (ow || !registry_contains st.registry item) = true →
      st.fs.hasFile (final_path path sh_title item ++ CONST_LOCK) = false →
      (shape = ChunkShape.emptyArgs ∨ shape = ChunkShape.nestedOther) →
      (process_item path ow net sh_title item st).exn = some PyExn.nameError ∧
      (process_item path ow net sh_title item st).record = some ⟨item, false, none, none⟩ ∧
      (process_item path ow net sh_title item st).st.registry = st.registry) := by
  refine ⟨download_file_quirk_crash, ?_⟩
  intro path ow net sh_title item st len w shape hn hlen hg hlock hshape
  have hl : (mk_show_dir path sh_title st.fs).hasFile
      (final_path path sh_title item ++ CONST_LOCK) = false := by
    rw [hasFile_mk_show_dir]
    exact hlock
  unfold process_item
  rw [if_pos hg, if_neg (by rw [hl]; simp), hn,
    download_file_quirk_crash item _ _ len w shape hlen hl hshape]
  exact ⟨rfl, rfl, rfl⟩

/-- Witness for C10: a concrete empty-`args` ChunkedEncodingError crashes the
handler with `NameError` instead of returning an outcome. -/
theorem C10_witness :
    download_file item7 "f"
        (NetResult.header 100 (TransferResult.chunkedErr ChunkShape.emptyArgs [1]))
        FS.empty
      = (FS.empty.writeFile ("f" ++ CONST_LOCK) [1], Except.error PyExn.nameError) :=
  C10_unassigned_msg_raises_name_error.1 item7 "f" FS.empty 100 [1]
    ChunkShape.emptyArgs (by decide) (by decide) (Or.inl rfl)

/-- Counterexample for C3: a `ChunkedEncodingError` that does not wrap an
`IncompleteRead` — its nested argument access raises `IndexError` — is a
transport error other than the known quirk, yet `download_file` treats it as
a completed transfer: it returns `True` with only a warning, the lock file is
renamed to the final path (content visible at `"f"`), and no lock marker is
left; the claimed FailedIO outcome (return `False`, lock left, no rename)
does not occur. -/
theorem C3_counterexample :
    (download_file item7 "f" (NetResult.header 100
        (TransferResult.chunkedErr ChunkShape.indexError [1, 2])) FS.empty).2
      = Except.ok (true, some (chunk_generic_msg 100), none) ∧
    ((download_file item7 "f" (NetResult.header 100
        (TransferResult.chunkedErr ChunkShape.indexError [1, 2])) FS.empty).1).getFile "f"
      = some [1, 2] ∧
    ((download_file item7 "f" (NetResult.header 100
        (TransferResult.chunkedErr ChunkShape.indexError [1, 2])) FS.empty).1).hasFile
        ("f" ++ CONST_LOCK) = false := by
  refine ⟨rfl, by decide, by decide⟩

/-- C3 (amended): a write or transport error raised as an `IOError` — but not
a `ChunkedEncodingError` — yields FailedIO: `download_file` returns `False`
with the error recorded, the lock marker stays in place, the final path is
untouched, and the registry is never updated for an item whose transfer ends
in an `IOError`. A `ChunkedEncodingError` never yields FailedIO: both the
known IncompleteRead quirk and the short-nested-`args` (IndexError) shape are
tolerated as completed transfers with a warning, and the remaining shapes
crash the handler. -/
theorem C3_io_error_failed_io_chunked_tolerated :
    (∀ (item : Item) (filename : String) (fs : FS) (len : Nat) (w : List Nat),
      len ≠ MAX_OCTET →
      fs.hasFile (filename ++ CONST_LOCK) = false →
      download_file item filename (NetResult.header len (TransferResult.ioErr w)) fs
        = (fs.writeFile (filename ++ CONST_LOCK) w,
            Except.ok (false, none, some io_error_msg)) ∧
      (fs.writeFile (filename ++ CONST_LOCK) w).hasFile (filename ++ CONST_LOCK) = true ∧
      (fs.writeFile (filename ++ CONST_LOCK) w).getFile filename = fs.getFile filename) ∧
    (∀ (path : String) (ow : Bool) (net : Item → NetResult) (sh_title : String)
      (item : Item) (st : SaveState) (len : Nat) (w : List Nat),
      net item = NetResult.header len (TransferResult.ioErr w) →
      (process_item path ow net sh_title item st).st.registry = st.registry) ∧
    (∀ (item : Item) (filename : String) (fs : FS) (len : Nat) (w : List Nat),
      len ≠ MAX_OCTET →
      fs.hasFile (filename ++ CONST_LOCK) = false →
      (download_file item filename (NetResult.header len
          (TransferResult.chunkedErr ChunkShape.indexError w)) fs).2
        = Except.ok (true, some (chunk_generic_msg len), none) ∧
      (download_file item filename (NetResult.header len
          (TransferResult.chunkedErr ChunkShape.nestedIncompleteRead w)) fs).2
        = Except.ok (true, some quirk_msg, none)) := by
  refine ⟨?_, ?_, ?_⟩
  · intro item filename fs len w hlen hlock
    refine ⟨?_, ?_, ?_⟩
    · simp only [download_file]
      rw [if_neg hlen, if_neg (by rw [hlock]; simp)]
    · show ((fs.writeFile (filename ++ CONST_LOCK) w).files (filename ++ CONST_LOCK)).isSome
        = true
      rw [files_writeFile_self]
      rfl
    · rw [getFile_writeFile, if_neg (Ne.symm (append_lock_ne_self filename))]
  · intro path ow net sh_title item st len w hn
    rcases process_item_cases path ow net sh_title item st with ⟨hreg, _⟩ | ⟨_, c, hc, _⟩
    · exact hreg
    · rw [hn] at hc
      exact absurd hc (by simp [delivered])
  · intro item filename fs len w hlen hlock
    constructor
    · simp only [download_file]
      rw [if_neg hlen, if_neg (by rw [hlock]; simp)]
    · simp only [download_file]
      rw [if_neg hlen, if_neg (by rw [hlock]; simp)]

/-- Witness for the amended C3 at a concrete `IOError` download: FailedIO with
the lock marker left behind and the final name untouched, and the registry
untouched in the save loop. -/
theorem C3_witness :
    download_file item7 "f" (NetResult.header 100 (TransferResult.ioErr [3]))
        FS.empty
      = (FS.empty.writeFile ("f" ++ CONST_LOCK) [3],
          Except.ok (false, none, some io_error_msg)) ∧
    (process_item "r" true (fun _ => NetResult.header 100 (TransferResult.ioErr [3]))
        "Drama" item7 st_empty).st.registry = st_empty.registry :=
  ⟨(C3_io_error_failed_io_chunked_tolerated.1 item7 "f" FS.empty 100 [3]
      (by decide) (by decide)).1,
   C3_io_error_failed_io_chunked_tolerated.2.1 "r" true
      (fun _ => NetResult.header 100 (TransferResult.ioErr [3])) "Drama" item7 st_empty
      100 [3] rfl⟩

/-- With `shows` set, the folder loop never consults the probe. -/
theorem filter_loop_shows_probe_indep (folder exclude title : List String)
    (is_recording : Bool) (probe probe2 : Item → Except Unit Bool)
    (dirs : List Directory) (acc : List FilterResult) :
    filter_loop folder exclude title true is_recording probe dirs acc
      = filter_loop folder exclude title true is_recording probe2 dirs acc := by
  induction dirs generalizing acc with
  | nil => rfl
  | cons dir rest ih =>
    simp only [filter_loop]
    by_cases hskip : (!has_include_folder dir folder || has_exclude_folder dir exclude) = true
    · rw [if_pos hskip, if_pos hskip]
      exact ih acc
    · rw [if_neg hskip, if_neg hskip]
      exact ih _

/-- With `shows` set, the folder loop always succeeds and every produced
folder has an empty item list. -/
theorem filter_loop_shows_ok (folder exclude title : List String)
    (is_recording : Bool) (probe : Item → Except Unit Bool)
    (dirs : List Directory) (acc : List FilterResult)
    (hacc : acc.all (fun r => r.items.isEmpty) = true) :
    ∃ rs, filter_loop folder exclude title true is_recording probe dirs acc
        = Except.ok rs ∧ rs.all (fun r => r.items.isEmpty) = true := by
  induction dirs generalizing acc with
  | nil => exact ⟨acc, rfl, hacc⟩
  | cons dir rest ih =>
    simp only [filter_loop]
    by_cases hskip : (!has_include_folder dir folder || has_exclude_folder dir exclude) = true
    · rw [if_pos hskip]
      exact ih acc hacc
    · rw [if_neg hskip]
      apply ih
      by_cases hir : is_recording = true
      · rw [if_pos hir]
        simp only [List.all_eq_true] at hacc ⊢
        intro r hr
        rcases List.mem_append.mp (List.mem_of_mem_filter hr) with h1 | h2
        · exact hacc r h1
        · rw [List.mem_singleton.mp h2]
          rfl
      · rw [if_neg hir]
        simp only [List.all_eq_true] at hacc ⊢
        intro r hr
        rcases List.mem_append.mp hr with h1 | h2
        · exact hacc r h1
        · rw [List.mem_singleton.mp h2]
          rfl

/-- C8: when `shows` is set the filter never invokes the live-recording
probe — its result is the same for any two probes — and it succeeds with
every surviving directory carrying an empty item list. -/
theorem C8_shows_only_skips_items_and_probe :
    ∀ (folder exclude title : List String) (is_recording : Bool)
      (probe probe2 : Item → Except Unit Bool) (recordings : List Directory),
      filter_recording_items folder exclude title true is_recording probe recordings
        = filter_recording_items folder exclude title true is_recording probe2 recordings ∧
      ∃ rs, filter_recording_items folder exclude title true is_recording probe recordings
          = Except.ok rs ∧ rs.all (fun r => r.items.isEmpty) = true := by
  intro folder exclude title is_recording probe probe2 recordings
  exact ⟨filter_loop_shows_probe_indep folder exclude title is_recording probe probe2
      recordings [],
    filter_loop_shows_ok folder exclude title is_recording probe recordings [] rfl⟩

/-- With `is_recording` set and a probe that always raises, the item loop
raises exactly when some item passes the title filter (the first probe call
propagates its transport error). -/
theorem process_items_fail_probe (title : List String) (items : List Item) :
    process_items title true (fun _ => Except.error ()) items
      = if items.any (fun it => has_title_match it title) then Except.error ()
        else Except.ok [] := by
  induction items with
  | nil => rfl
  | cons item rest ih =>
    cases h : has_title_match item title <;>
      simp [process_items, h, ih, List.any_cons]

/-- Under an always-failing probe (with `shows` unset, `is_recording` set) the
folder loop errors exactly when some folder passing the include/exclude
filters has a title-matching item; otherwise it succeeds. -/
theorem filter_loop_fail_probe (folder exclude title : List String)
    (dirs : List Directory) (acc : List FilterResult) :
    ((dirs.any fun d => has_include_folder d folder && !has_exclude_folder d exclude
        && d.items.any fun it => has_title_match it title) = true →
      filter_loop folder exclude title false true (fun _ => Except.error ()) dirs acc
        = Except.error ()) ∧
    ((dirs.any fun d => has_include_folder d folder && !has_exclude_folder d exclude
        && d.items.any fun it => has_title_match it title) = false →
      ∃ rs, filter_loop folder exclude title false true (fun _ => Except.error ()) dirs acc
          = Except.ok rs) := by
  induction dirs generalizing acc with
  | nil => exact ⟨fun h => by simp at h, fun _ => ⟨acc, rfl⟩⟩
  | cons dir rest ih =>
    simp only [filter_loop]
    by_cases hskip : (!has_include_folder dir folder || has_exclude_folder dir exclude) = true
    · rw [if_pos hskip]
      have hq : (has_include_folder dir folder && !has_exclude_folder dir exclude
          && dir.items.any fun it => has_title_match it title) = false := by
        cases hi : has_include_folder dir folder <;>
          cases he : has_exclude_folder dir exclude <;>
            simp [hi, he] at hskip ⊢
      constructor
      · intro h
        rw [List.any_cons, hq, Bool.false_or] at h
        exact (ih acc).1 h
      · intro h
        rw [List.any_cons, hq, Bool.false_or] at h
        exact (ih acc).2 h
    · rw [if_neg hskip]
      have hi : has_include_folder dir folder = true := by
        cases hi : has_include_folder dir folder <;> simp [hi] at hskip ⊢
      have he : has_exclude_folder dir exclude = false := by
        cases he : has_exclude_folder dir exclude <;> simp [he] at hskip ⊢
      rw [show (if !false then process_items title true (fun _ => Except.error ())
            dir.items else Except.ok []) = process_items title true
            (fun _ => Except.error ()) dir.items from rfl,
        process_items_fail_probe]
      by_cases hany : (dir.items.any fun it => has_title_match it title) = true
      · rw [if_pos hany]
        constructor
        · intro _
          rfl
        · intro h
          rw [List.any_cons, hi, he, hany] at h
          simp at h
      · have hany' : (dir.items.any fun it => has_title_match it title) = false :=
          Bool.eq_false_iff.mpr hany
        rw [if_neg hany]
        have hq : (has_include_folder dir folder && !has_exclude_folder dir exclude
            && dir.items.any fun it => has_title_match it title) = false := by
          rw [hi, he, hany']
          rfl
        constructor
        · intro h
          rw [List.any_cons, hq, Bool.false_or] at h
          exact (ih _).1 h
        · intro h
          rw [List.any_cons, hq, Bool.false_or] at h
          exact (ih _).2 h

/-- Counterexample for C2: with `is_recording` set and a probe that fails with
a transport error, the whole filtering run aborts with the error — the item is
not treated as "not live" and filtering does not continue. -/
theorem C2_counterexample :
    filter_recording_items [] [] [] false true (fun _ => Except.error ())
        [⟨"10", "Folder", [item7]⟩] = Except.error () := rfl

/-- C2 (amended): a transport error in the live-recording probe is not caught
by the filter: it propagates and aborts the filtering run. With a probe that
always fails, the filter errors exactly when it reaches any probed item, i.e.
when some folder surviving the include/exclude criteria has a title-matching
item. -/
theorem C2_probe_error_aborts_filter :
    ∀ (folder exclude title : List String) (recordings : List Directory),
      (filter_recording_items folder exclude title false true
          (fun _ => Except.error ()) recordings = Except.error ())
        ↔ (recordings.any fun d => has_include_folder d folder
            && !has_exclude_folder d exclude
            && d.items.any fun it => has_title_match it title) = true := by
  intro folder exclude title recordings
  constructor
  · intro h
    by_contra hneg
    rcases (filter_loop_fail_probe folder exclude title recordings []).2
        (Bool.eq_false_iff.mpr hneg) with ⟨rs, hrs⟩
    rw [filter_recording_items] at h
    rw [h] at hrs
    exact absurd hrs (by simp)
  · intro h
    exact (filter_loop_fail_probe folder exclude title recordings []).1 h

/-- Witness for the amended C2: a concrete folder with a title-matching item
under an always-failing probe aborts the filter run. -/
theorem C2_witness :
    filter_recording_items [] [] [] false true (fun _ => Except.error ())
        [⟨"20", "Movies", [item42]⟩] = Except.error () :=
  (C2_probe_error_aborts_filter [] [] [] [⟨"20", "Movies", [item42]⟩]).mpr (by decide)

theorem string_data_ne_nil_of_ne_empty (s : String) (h : s ≠ "") : s.data ≠ [] := by
  intro hd
  apply h
  cases s with
  | mk l =>
    simp only at hd
    rw [hd]

/-- Truthiness of a `next(..., False)` result: true exactly for a matched term
that is a non-empty string. -/
theorem truthy_iff (o : Option String) : truthy o = true ↔ ∃ t, o = some t ∧ t ≠ "" := by
  cases o with
  | none => simp [truthy]
  | some s =>
    constructor
    · intro h
      refine ⟨s, rfl, fun hs => ?_⟩
      subst hs
      exact absurd h (by decide)
    · rintro ⟨t, ht, hne⟩
      cases ht
      show (!s.toList.isEmpty) = true
      have : s.toList ≠ [] := string_data_ne_nil_of_ne_empty s hne
      cases hl : s.toList with
      | nil => exact absurd hl this
      | cons c cs => rfl

theorem include_nonempty_eq (dir : Directory) (t : String) (ts : List String) :
    has_include_folder dir (t :: ts) = truthy (first_match dir.title (t :: ts)) := by
  simp [has_include_folder]

/-- Membership in the filter's successful output implies a source directory
that passed the include filter and failed the exclude filter. -/
theorem filter_loop_mem (folder exclude title : List String) (sh ir : Bool)
    (probe : Item → Except Unit Bool) (dirs : List Directory) (acc : List FilterResult)
    (rs : List FilterResult) (r : FilterResult)
    (hok : filter_loop folder exclude title sh ir probe dirs acc = Except.ok rs)
    (hr : r ∈ rs) :
    r ∈ acc ∨ ∃ dir, dir ∈ dirs ∧ dir.title = r.title ∧ dir.id = r.id ∧
      has_include_folder dir folder = true ∧ has_exclude_folder dir exclude = false := by
  induction dirs generalizing acc with
  | nil =>
    simp only [filter_loop] at hok
    cases hok
    exact Or.inl hr
  | cons dir rest ih =>
    simp only [filter_loop] at hok
    by_cases hskip : (!has_include_folder dir folder || has_exclude_folder dir exclude) = true
    · rw [if_pos hskip] at hok
      rcases ih acc hok with h1 | ⟨d, hd, h2⟩
      · exact Or.inl h1
      · exact Or.inr ⟨d, List.mem_cons_of_mem _ hd, h2⟩
    · rw [if_neg hskip] at hok
      have hi : has_include_folder dir folder = true := by
        cases hi : has_include_folder dir folder <;> simp [hi] at hskip ⊢
      have he : has_exclude_folder dir exclude = false := by
        cases he : has_exclude_folder dir exclude <;> simp [he] at hskip ⊢
      cases hits : (if !sh then process_items title ir probe dir.items
          else Except.ok []) with
      | error e =>
        rw [hits] at hok
        cases hok
      | ok its =>
        rw [hits] at hok
        rcases ih _ hok with h1 | ⟨d, hd, h2⟩
        · have hr2 : r ∈ acc ++ [(⟨dir.title, dir.id, its⟩ : FilterResult)] := by
            by_cases hir : ir = true
            · rw [if_pos hir] at h1
              exact List.mem_of_mem_filter h1
            · rw [if_neg hir] at h1
              exact h1
          rcases List.mem_append.mp hr2 with h3 | h4
          · exact Or.inl h3
          · have hreq : r = ⟨dir.title, dir.id, its⟩ := List.mem_singleton.mp h4
            exact Or.inr ⟨dir, List.mem_cons_self _ _, by rw [hreq], by rw [hreq], hi, he⟩
        · exact Or.inr ⟨d, List.mem_cons_of_mem _ hd, h2⟩

/-- Counterexample for C7: the code includes the directory titled `"abc"`
under the include term `" abc "`, although that term is not a case-insensitive
substring of the title — the code first strips the term, so matching is not a
case-insensitive substring test of each criterion term itself. -/
theorem C7_counterexample :
    filter_recording_items [" abc "] [] [] true false (fun _ => Except.error ())
        [⟨"1", "abc", []⟩] = Except.ok [⟨"abc", "1", []⟩] ∧
    py_in (py_lower " abc ") (py_lower "abc") = false :=
  ⟨rfl, by decide⟩

/-- C7 (amended): folder and title matching finds the first criterion term
whose whitespace-stripped form is a case-insensitive substring of the title,
and treats the criterion list as matching only when that first matching term
is itself non-empty (Python truthiness of the matched term); an empty include
set matches every title; any directory in the filter output passed the
include criterion and did not pass the exclude criterion, so an exclude match
(in this stripped, non-empty-term sense) removes a directory regardless of
include terms. -/
theorem C7_stripped_substring_matching :
    (∀ dir : Directory, has_include_folder dir [] = true) ∧
    (∀ (dir : Directory) (t : String) (ts : List String),
      has_include_folder dir (t :: ts) = true ↔
        ∃ u, List.find? (fun v => py_in (py_lower (py_strip v)) (py_lower dir.title))
            (t :: ts) = some u ∧ u ≠ "") ∧
    (∀ (dir : Directory) (terms : List String),
      has_exclude_folder dir terms = true ↔
        ∃ u, List.find? (fun v => py_in (py_lower (py_strip v)) (py_lower dir.title))
            terms = some u ∧ u ≠ "") ∧
    (∀ (folder exclude title : List String) (sh ir : Bool)
      (probe : Item → Except Unit Bool) (dirs : List Directory)
      (rs : List FilterResult) (r : FilterResult),
      filter_recording_items folder exclude title sh ir probe dirs = Except.ok rs →
      r ∈ rs →
      ∃ dir, dir ∈ dirs ∧ dir.title = r.title ∧ dir.id = r.id ∧
        has_include_folder dir folder = true ∧ has_exclude_folder dir exclude = false) := by
  refine ⟨?_, ?_, ?_, ?_⟩
  · intro dir
    rfl
  · intro dir t ts
    rw [include_nonempty_eq, truthy_iff]
    rfl
  · intro dir terms
    cases terms with
    | nil => simp [has_exclude_folder]
    | cons t ts =>
      have : has_exclude_folder dir (t :: ts) = truthy (first_match dir.title (t :: ts)) := by
        simp [has_exclude_folder]
      rw [this, truthy_iff]
      rfl
  · intro folder exclude title sh ir probe dirs rs r hok hr
    rcases filter_loop_mem folder exclude title sh ir probe dirs [] rs r hok hr with
      h1 | h2
    · exact absurd h1 (List.not_mem_nil r)
    · exact h2

/-- Witness for the amended C7: a concrete filter run with empty criteria
returns the directory, which indeed passed include and failed exclude. -/
theorem C7_witness :
    ∃ dir, dir ∈ [(⟨"5", "News", []⟩ : Directory)] ∧ dir.title = "News" ∧ dir.id = "5" ∧
      has_include_folder dir [] = true ∧ has_exclude_folder dir [] = false :=
  C7_stripped_substring_matching.2.2.2 [] [] [] true false (fun _ => Except.error ())
    [⟨"5", "News", []⟩] [⟨"News", "5", []⟩] ⟨"News", "5", []⟩ rfl (by decide)

/-- C9 (code evaluation): the header probe issued by `currently_recording`
(source line 150) is `requests.get(item.url, stream=True)` with no timeout
argument at all — the `REQUEST_TIMEOUT` constant of line 26 is never used —
so no request timeout bounds the probe. -/
theorem C9_probe_request_has_no_timeout :
    ∀ item : Item, (currently_recording_request item).timeout = none ∧
      (currently_recording_request item).url = item.url ∧
      (currently_recording_request item).stream = true := by
  intro item
  exact ⟨rfl, rfl, rfl⟩
